import Mathlib

/-!
Shallow embedding of the `AdvancedLibraryDB` IndexedDB wrapper: the data
model (books, members, issues, settings), the CRUD operations, and the
issue/return/overdue workflow, together with theorems checking the
specification's claims against these definitions.

Modelling conventions:
* A JS `Date` is its `getTime()` value, in milliseconds: `Time := Int`.
* Each object store is a list of records; IndexedDB `add` fails when the
  key is already present, `put` replaces the record with the same key.
* Generated identifiers (`crypto.randomUUID`, `generateMemberId`) are
  passed in as explicit arguments, since they come from the environment.
* The singleton settings record is kept directly in the state: after
  `init`, `loadSettings` guarantees the `'default'` record exists.
* An operation that can throw returns `Except`; `issueBook` and
  `returnBook` instead return the resulting state together with the
  outcome, because their trailing availability update runs after the
  issue-store write has already been committed.
-/

/-- JS epoch milliseconds, the value of `Date.getTime()`. -/
abbrev Time := Int

/-- The union type `'issued' | 'returned' | 'overdue'`. -/
inductive IssueStatus where
  | issued
  | returned
  | overdue
  deriving DecidableEq, Repr

/-- The `Book` record. -/
structure Book where
  id : String
  title : String
  author : String
  category : String
  publicationYear : Int
  isbn : Option String
  totalCopies : Int
  availableCopies : Int
  createdAt : Time
  updatedAt : Time
  deriving DecidableEq, Repr

/-- The `Member` record. -/
structure Member where
  id : String
  memberId : String
  name : String
  phone : String
  email : String
  address : Option String
  createdAt : Time
  updatedAt : Time
  deriving DecidableEq, Repr

/-- The `Issue` record. -/
structure Issue where
  id : String
  bookId : String
  memberId : String
  bookTitle : String
  memberName : String
  issueDate : Time
  dueDate : Time
  returnDate : Option Time
  status : IssueStatus
  createdAt : Time
  updatedAt : Time
  deriving DecidableEq, Repr

/-- The `LibrarySettings` record; `theme` is the string `'light'` or `'dark'`. -/
structure LibrarySettings where
  id : String
  defaultLoanDuration : Int
  theme : String
  autoNotifications : Bool
  finePerDay : Int
  maxBooksPerMember : Int
  updatedAt : Time
  deriving DecidableEq, Repr

/-- The in-memory default settings of the `AdvancedLibraryDB` constructor
(`updatedAt` is the construction instant, fixed to 0 here). -/
def defaultSettings : LibrarySettings :=
  { id := "default", defaultLoanDuration := 14, theme := "light",
    autoNotifications := false, finePerDay := 1, maxBooksPerMember := 3,
    updatedAt := 0 }

/-- The four object stores of `AdvancedLibraryDB`, with the singleton
settings record held directly. -/
structure DBState where
  books : List Book
  members : List Member
  issues : List Issue
  settings : LibrarySettings
  deriving DecidableEq, Repr

/-- The errors thrown by the wrapper, one constructor per `throw`/`reject`
message site among the modelled operations. -/
inductive DBError where
  | bookNotFound
  | memberNotFound
  | issueNotFound
  | noCopiesAvailable
  | memberLimitReached
  | emailExists
  | phoneExists
  | alreadyReturned
  | addBookFailed
  | addMemberFailed
  | addIssueFailed
  deriving DecidableEq, Repr

/-- IndexedDB `store.put`: replace the record with the same key, or append
when the key is absent. -/
def putById {α : Type} (key : α → String) (l : List α) (x : α) : List α :=
  if l.any (fun y => key y == key x) then
    l.map (fun y => if key y == key x then x else y)
  else l ++ [x]

/-- `getBookById`: `store.get(id)` on the books store. -/
def getBookById (s : DBState) (id : String) : Option Book :=
  s.books.find? (fun b => b.id == id)

/-- `getMemberById`: `store.get(id)` on the members store. -/
def getMemberById (s : DBState) (id : String) : Option Member :=
  s.members.find? (fun m => m.id == id)

/-- Mirrors `Omit<Book, 'id' | 'createdAt' | 'updatedAt'>`, the argument
type of `addBook` (note it still contains `availableCopies`). -/
structure BookData where
  title : String
  author : String
  category : String
  publicationYear : Int
  isbn : Option String
  totalCopies : Int
  availableCopies : Int
  deriving DecidableEq, Repr

/-- `addBook`: builds the record with a generated id and fresh timestamps,
setting `availableCopies: bookData.totalCopies` (the spread's
`availableCopies` is overwritten because the field is listed after
`...bookData`), then `store.add`. -/
def addBook (s : DBState) (bookData : BookData) (newId : String) (now : Time) :
    Except DBError (DBState × Book) :=
  let book : Book :=
    { id := newId, title := bookData.title, author := bookData.author,
      category := bookData.category, publicationYear := bookData.publicationYear,
      isbn := bookData.isbn, totalCopies := bookData.totalCopies,
      availableCopies := bookData.totalCopies,
      createdAt := now, updatedAt := now }
  if s.books.any (fun b => b.id == newId) then .error .addBookFailed
  else .ok ({ s with books := s.books ++ [book] }, book)

/-- Mirrors `Partial<Omit<Book, 'id' | 'createdAt'>>` for the fields the
repository actually passes to `updateBook`. -/
structure BookUpdates where
  title : Option String := none
  author : Option String := none
  category : Option String := none
  publicationYear : Option Int := none
  isbn : Option (Option String) := none
  totalCopies : Option Int := none
  availableCopies : Option Int := none
  deriving Repr

/-- The object spread `{ ...existingBook, ...updates }`. -/
def applyBookUpdates (b : Book) (u : BookUpdates) : Book :=
  { b with
    title := u.title.getD b.title,
    author := u.author.getD b.author,
    category := u.category.getD b.category,
    publicationYear := u.publicationYear.getD b.publicationYear,
    isbn := u.isbn.getD b.isbn,
    totalCopies := u.totalCopies.getD b.totalCopies,
    availableCopies := u.availableCopies.getD b.availableCopies }

/-- `updateBook`: get the record, merge the updates, stamp `updatedAt`,
and `put` it back; fails with not-found when the id is absent. -/
def updateBook (s : DBState) (id : String) (updates : BookUpdates) (now : Time) :
    Except DBError (DBState × Book) :=
  match s.books.find? (fun b => b.id == id) with
  | none => .error .bookNotFound
  | some existingBook =>
    let updatedBook : Book := { applyBookUpdates existingBook updates with updatedAt := now }
    .ok ({ s with books := putById (fun b => b.id) s.books updatedBook }, updatedBook)

/-- `updateBookAvailability(bookId, change)`: clamp
`book.availableCopies + change` into `[0, book.totalCopies]` with
`Math.max(0, Math.min(totalCopies, availableCopies + change))` and write
it through `updateBook`. -/
def updateBookAvailability (s : DBState) (bookId : String) (change : Int) (now : Time) :
    Except DBError DBState :=
  match getBookById s bookId with
  | none => .error .bookNotFound
  | some book =>
    let newAvailableCopies := max 0 (min book.totalCopies (book.availableCopies + change))
    (updateBook s bookId { availableCopies := some newAvailableCopies } now).map (fun r => r.1)

/-- Mirrors `Omit<Member, 'id' | 'memberId' | 'createdAt' | 'updatedAt'>`. -/
structure MemberData where
  name : String
  phone : String
  email : String
  address : Option String
  deriving DecidableEq, Repr

/-- `addMember`: rejects a duplicate email or phone among the existing
members, then builds the record with generated `id` and `memberId` and
`store.add`s it. The add itself fails when the primary key `id` or the
`unique: true` index on `memberId` (the generated member code, schema
line 125) collides with an existing record. -/
def addMember (s : DBState) (memberData : MemberData) (newId newMemberId : String)
    (now : Time) : Except DBError (DBState × Member) :=
  if s.members.any (fun m => m.email == memberData.email) then .error .emailExists
  else if s.members.any (fun m => m.phone == memberData.phone) then .error .phoneExists
  else
    let member : Member :=
      { id := newId, memberId := newMemberId, name := memberData.name,
        phone := memberData.phone, email := memberData.email,
        address := memberData.address, createdAt := now, updatedAt := now }
    if s.members.any (fun m => m.id == newId || m.memberId == newMemberId) then
      .error .addMemberFailed
    else .ok ({ s with members := s.members ++ [member] }, member)

/-- Mirrors `Partial<Omit<Member, 'id' | 'memberId' | 'createdAt'>>`. -/
structure MemberUpdates where
  name : Option String := none
  phone : Option String := none
  email : Option String := none
  address : Option (Option String) := none
  deriving Repr

/-- The object spread `{ ...existingMember, ...updates }`. -/
def applyMemberUpdates (m : Member) (u : MemberUpdates) : Member :=
  { m with
    name := u.name.getD m.name,
    phone := u.phone.getD m.phone,
    email := u.email.getD m.email,
    address := u.address.getD m.address }

/-- `updateMember`: get, merge, stamp `updatedAt`, `put`. Unlike
`addMember`, it performs no email/phone uniqueness check. -/
def updateMember (s : DBState) (id : String) (updates : MemberUpdates) (now : Time) :
    Except DBError (DBState × Member) :=
  match s.members.find? (fun m => m.id == id) with
  | none => .error .memberNotFound
  | some existingMember =>
    let updatedMember : Member := { applyMemberUpdates existingMember updates with updatedAt := now }
    .ok ({ s with members := putById (fun m => m.id) s.members updatedMember }, updatedMember)

/-- `getMemberIssues(memberId)`: the issues of that member whose status is
exactly `'issued'`. -/
def getMemberIssues (s : DBState) (memberId : String) : List Issue :=
  s.issues.filter (fun issue => issue.memberId == memberId && issue.status == .issued)

/-- The argument record of `issueBook`. -/
structure IssueRequest where
  bookId : String
  memberId : String
  dueDate : Option Time
  deriving DecidableEq, Repr

/-- `issueBook`: validates that the book and member exist, that
`availableCopies > 0`, and that the member's `'issued'` count is below
`maxBooksPerMember`; on success adds the issue record (status `'issued'`,
due date defaulting to `issueDate + defaultLoanDuration` days) and then
runs `updateBookAvailability(bookId, -1)`. The availability update runs
inside the add request's `onsuccess` handler, after the issue write; a
failure there is never delivered to the caller in the source (the promise
never settles), so the pair returned here carries the state as written so
far together with the outcome. -/
def issueBook (s : DBState) (issueData : IssueRequest) (newId : String) (now : Time) :
    DBState × Except DBError Issue :=
  let settings := s.settings
  match getBookById s issueData.bookId with
  | none => (s, .error .bookNotFound)
  | some book =>
    match getMemberById s issueData.memberId with
    | none => (s, .error .memberNotFound)
    | some member =>
      if book.availableCopies ≤ 0 then (s, .error .noCopiesAvailable)
      else
        let currentIssues := getMemberIssues s issueData.memberId
        if (currentIssues.length : Int) ≥ settings.maxBooksPerMember then
          (s, .error .memberLimitReached)
        else
          let issueDate := now
          let dueDate :=
            issueData.dueDate.getD (issueDate + settings.defaultLoanDuration * (24 * 60 * 60 * 1000))
          let issue : Issue :=
            { id := newId, bookId := issueData.bookId, memberId := issueData.memberId,
              bookTitle := book.title, memberName := member.name,
              issueDate := issueDate, dueDate := dueDate, returnDate := none,
              status := .issued, createdAt := now, updatedAt := now }
          if s.issues.any (fun i => i.id == newId) then (s, .error .addIssueFailed)
          else
            let s1 := { s with issues := s.issues ++ [issue] }
            match updateBookAvailability s1 issueData.bookId (-1) now with
            | .ok s2 => (s2, .ok issue)
            | .error e => (s1, .error e)

/-- `returnBook(issueId)`: fails when the issue is absent or its status is
`'returned'` (that is the whole already-returned check — `returnDate` is
not consulted); otherwise stamps `returnDate := now`, sets the status to
`'overdue'` when `now > dueDate` and `'returned'` otherwise, `put`s the
issue, and then runs `updateBookAvailability(bookId, 1)`. As in
`issueBook`, the availability update runs after the issue write has been
committed, and its failure is not surfaced in the source. -/
def returnBook (s : DBState) (issueId : String) (now : Time) :
    DBState × Except DBError Issue :=
  match s.issues.find? (fun i => i.id == issueId) with
  | none => (s, .error .issueNotFound)
  | some existingIssue =>
    if existingIssue.status == .returned then (s, .error .alreadyReturned)
    else
      let returnDate := now
      let isOverdue := returnDate > existingIssue.dueDate
      let updatedIssue : Issue :=
        { existingIssue with
          returnDate := some returnDate,
          status := if isOverdue then .overdue else .returned,
          updatedAt := now }
      let s1 := { s with issues := putById (fun i => i.id) s.issues updatedIssue }
      match updateBookAvailability s1 existingIssue.bookId 1 now with
      | .ok s2 => (s2, .ok updatedIssue)
      | .error e => (s1, .error e)

/-- Mirrors `Partial<Issue>` for the field the repository actually passes
to `updateIssue` (only `status`, in `updateOverdueStatus`). -/
structure IssueUpdates where
  status : Option IssueStatus := none
  deriving Repr

/-- The object spread `{ ...existingIssue, ...updates }`. -/
def applyIssueUpdates (i : Issue) (u : IssueUpdates) : Issue :=
  { i with status := u.status.getD i.status }

/-- `updateIssue`: get, merge, stamp `updatedAt`, `put`. -/
def updateIssue (s : DBState) (id : String) (updates : IssueUpdates) (now : Time) :
    Except DBError (DBState × Issue) :=
  match s.issues.find? (fun i => i.id == id) with
  | none => .error .issueNotFound
  | some existingIssue =>
    let updatedIssue : Issue := { applyIssueUpdates existingIssue updates with updatedAt := now }
    .ok ({ s with issues := putById (fun i => i.id) s.issues updatedIssue }, updatedIssue)

/-- `updateOverdueStatus` (the overdue sweep): collect the issues with
status `'issued'` and `dueDate < now`, then set each one's status to
`'overdue'` through `updateIssue`, awaiting each update in order. -/
def updateOverdueStatus (s : DBState) (now : Time) : Except DBError DBState :=
  let overdueIssues :=
    s.issues.filter (fun issue => issue.status == .issued && decide (issue.dueDate < now))
  overdueIssues.foldlM
    (fun st issue => (updateIssue st issue.id { status := some .overdue } now).map (fun r => r.1)) s

/-- `saveSettings`: `{ ...this.settings, ...settings, id: 'default',
updatedAt: now }`, then `put`. The only modelled caller (`importData`)
passes a complete settings object, so the merge overwrites every field. -/
def saveSettings (s : DBState) (settings : LibrarySettings) (now : Time) :
    DBState × LibrarySettings :=
  let updatedSettings : LibrarySettings := { settings with id := "default", updatedAt := now }
  ({ s with settings := updatedSettings }, updatedSettings)

/-- The JSON document of `exportData`/`importData`:
`{books, members, issues, settings}`. -/
structure ExportDoc where
  books : List Book
  members : List Member
  issues : List Issue
  settings : LibrarySettings
  deriving DecidableEq, Repr

/-- `exportData`: snapshot the four stores. -/
def exportData (s : DBState) : ExportDoc :=
  { books := s.books, members := s.members, issues := s.issues, settings := s.settings }

/-- `clearAllData`: clears the books, members and issues stores (the
settings store is not part of the transaction). -/
def clearAllData (s : DBState) : DBState :=
  { s with books := [], members := [], issues := [] }

/-- The book-import loop of `importData`: each book is re-added through
`addBook` with a freshly generated id (`genId k` for the k-th book); a
failure is not caught and aborts the import. -/
def importBooksLoop (st : DBState) (bs : List Book) (genId : Nat → String) (k : Nat)
    (now : Time) : Except DBError DBState :=
  match bs with
  | [] => .ok st
  | b :: rest =>
    match addBook st
        { title := b.title, author := b.author, category := b.category,
          publicationYear := b.publicationYear, isbn := b.isbn,
          totalCopies := b.totalCopies, availableCopies := b.availableCopies }
        (genId k) now with
    | .error e => .error e
    | .ok (st2, _) => importBooksLoop st2 rest genId (k + 1) now

/-- The member-import loop of `importData`: each member is re-added
through `addMember` with freshly generated `id` and `memberId`; a failure
(e.g. duplicate email/phone) is caught, logged and skipped. -/
def importMembersLoop (st : DBState) (ms : List Member) (genId genCode : Nat → String)
    (k : Nat) (now : Time) : DBState :=
  match ms with
  | [] => st
  | m :: rest =>
    match addMember st
        { name := m.name, phone := m.phone, email := m.email, address := m.address }
        (genId k) (genCode k) now with
    | .error _ => importMembersLoop st rest genId genCode (k + 1) now
    | .ok (st2, _) => importMembersLoop st2 rest genId genCode (k + 1) now

/-- `importData`: clear all stores, re-add the books (fresh ids, and
`addBook` resets `availableCopies` to `totalCopies`), re-add the members
(fresh ids and member codes, failures skipped), save the settings.
`data.issues` is never read: the exported issues are dropped. -/
def importData (s : DBState) (data : ExportDoc) (bookGen memberGen codeGen : Nat → String)
    (now : Time) : Except DBError DBState :=
  match importBooksLoop (clearAllData s) data.books bookGen 0 now with
  | .error e => .error e
  | .ok s1 =>
    let s2 := importMembersLoop s1 data.members memberGen codeGen 0 now
    .ok ((saveSettings s2 data.settings now).1)

/-- A sequence step for the issue/return workflow: either
`issueBook` or `returnBook`, with its environment inputs. -/
inductive LibOp where
  | issue (issueData : IssueRequest) (newId : String) (now : Time)
  | ret (issueId : String) (now : Time)
  deriving Repr

/-- Run one workflow operation, keeping the state it leaves behind whether
or not the operation reported an error. -/
def applyOp (s : DBState) (op : LibOp) : DBState :=
  match op with
  | .issue issueData newId now => (issueBook s issueData newId now).1
  | .ret issueId now => (returnBook s issueId now).1

/-- Run a sequence of issue/return operations. -/
def applyOps (s : DBState) (ops : List LibOp) : DBState :=
  ops.foldl applyOp s

/-- The spec's book-counter invariant:
`0 ≤ availableCopies ≤ totalCopies` for every stored book. -/
def BookInv (s : DBState) : Prop :=
  ∀ b ∈ s.books, 0 ≤ b.availableCopies ∧ b.availableCopies ≤ b.totalCopies

instance (s : DBState) : Decidable (BookInv s) := by
  unfold BookInv; infer_instance

/-! ### Concrete fixtures used by witnesses and counterexamples -/

/-- An empty store with the constructor's default settings. -/
def exEmpty : DBState :=
  { books := [], members := [], issues := [], settings := defaultSettings }

/-- A book-creation request whose `availableCopies` (0) differs from its
`totalCopies` (2). -/
def exBookData : BookData :=
  { title := "T", author := "A", category := "C", publicationYear := 2000,
    isbn := none, totalCopies := 2, availableCopies := 0 }

/-- A stored book with one of two copies on loan. -/
def exBook1 : Book :=
  { id := "b1", title := "T", author := "A", category := "C", publicationYear := 2000,
    isbn := none, totalCopies := 2, availableCopies := 1, createdAt := 0, updatedAt := 0 }

/-- A stored member. -/
def exMember1 : Member :=
  { id := "m1", memberId := "LIB1", name := "N", phone := "111", email := "a@x",
    address := none, createdAt := 0, updatedAt := 0 }

/-- A second stored member with distinct email and phone. -/
def exMember2 : Member :=
  { id := "m2", memberId := "LIB2", name := "M", phone := "222", email := "b@x",
    address := none, createdAt := 0, updatedAt := 0 }

/-- An issue of `exBook1` to `exMember1` that was returned late: the
return is recorded (`returnDate = some 20`) and the status is `'overdue'`. -/
def exIssueLateRet : Issue :=
  { id := "i1", bookId := "b1", memberId := "m1", bookTitle := "T", memberName := "N",
    issueDate := 0, dueDate := 10, returnDate := some 20, status := .overdue,
    createdAt := 0, updatedAt := 20 }

/-- The same issue while still outstanding but already past due and swept
to `'overdue'`: no return recorded. -/
def exIssueOverdueHeld : Issue :=
  { id := "i1", bookId := "b1", memberId := "m1", bookTitle := "T", memberName := "N",
    issueDate := 0, dueDate := 10, returnDate := none, status := .overdue,
    createdAt := 0, updatedAt := 15 }

/-- A store holding the late-returned issue. -/
def exStateLateRet : DBState :=
  { books := [exBook1], members := [exMember1], issues := [exIssueLateRet],
    settings := defaultSettings }

/-- A store with an available book and a member, but where the issue
request below names a member that does not exist. -/
def exStateNoSuchMember : DBState :=
  { books := [exBook1], members := [exMember1], issues := [],
    settings := defaultSettings }

/-- A store where `exMember1` holds `maxBooksPerMember = 1` unreturned
books, but the record was swept to `'overdue'`. -/
def exStateOverdueHeld : DBState :=
  { books := [exBook1], members := [exMember1], issues := [exIssueOverdueHeld],
    settings := { defaultSettings with maxBooksPerMember := 1 } }

/-- Whether an `Except` result is an error (a rejected promise). -/
def isErr {ε α : Type} : Except ε α → Bool
  | .error _ => true
  | .ok _ => false

instance exceptDecEq {ε α : Type} [DecidableEq ε] [DecidableEq α] :
    DecidableEq (Except ε α) := fun x y =>
  match x, y with
  | .error a, .error b =>
    if h : a = b then .isTrue (by rw [h]) else .isFalse (by simp [h])
  | .error _, .ok _ => .isFalse (by simp)
  | .ok _, .error _ => .isFalse (by simp)
  | .ok a, .ok b =>
    if h : a = b then .isTrue (by rw [h]) else .isFalse (by simp [h])

/-- The caller-supplied descriptive fields of a book, i.e. everything
except the generated `id`/timestamps and the availability counter. -/
def bookCore (b : Book) : String × String × String × Int × Option String × Int :=
  (b.title, b.author, b.category, b.publicationYear, b.isbn, b.totalCopies)

/-- The caller-supplied fields of a member. -/
def memberCore (m : Member) : String × String × String × Option String :=
  (m.name, m.phone, m.email, m.address)

/-- The settings payload, i.e. everything except `id` and `updatedAt`. -/
def settingsCore (st : LibrarySettings) : Int × String × Bool × Int × Int :=
  (st.defaultLoanDuration, st.theme, st.autoNotifications, st.finePerDay,
    st.maxBooksPerMember)

/-- The pointwise effect of one overdue sweep on one issue: an `'issued'`
record past its due date is flipped to `'overdue'` (with a fresh
`updatedAt`); every other record is untouched. -/
def flipIssue (now : Time) (i : Issue) : Issue :=
  if i.status = .issued ∧ i.dueDate < now then
    { i with status := .overdue, updatedAt := now }
  else i

/-- Mark as `'overdue'` every issue whose id occurs in `ids` (the partial
effect of the sweep loop after processing the issues with those ids). -/
def markOverdue (now : Time) (ids : List String) (l : List Issue) : List Issue :=
  l.map (fun j =>
    if ids.contains j.id then { j with status := .overdue, updatedAt := now } else j)

/-- The record `addBook` stores when `importData` re-adds an exported
book: fresh id and timestamps, `availableCopies` reset to `totalCopies`. -/
def reAddBook (b : Book) (newId : String) (now : Time) : Book :=
  { id := newId, title := b.title, author := b.author, category := b.category,
    publicationYear := b.publicationYear, isbn := b.isbn,
    totalCopies := b.totalCopies, availableCopies := b.totalCopies,
    createdAt := now, updatedAt := now }

/-- The books the book-import loop appends, ids drawn from `genId`
starting at index `k`. -/
def reAddBooks (bs : List Book) (genId : Nat → String) (k : Nat) (now : Time) : List Book :=
  match bs with
  | [] => []
  | b :: rest => reAddBook b (genId k) now :: reAddBooks rest genId (k + 1) now

/-- The record `addMember` stores when `importData` re-adds an exported
member: fresh id, fresh member code, fresh timestamps. -/
def reAddMember (m : Member) (newId newCode : String) (now : Time) : Member :=
  { id := newId, memberId := newCode, name := m.name, phone := m.phone,
    email := m.email, address := m.address, createdAt := now, updatedAt := now }

/-- The members the member-import loop appends when no record is skipped. -/
def reAddMembers (ms : List Member) (genId genCode : Nat → String) (k : Nat)
    (now : Time) : List Member :=
  match ms with
  | [] => []
  | m :: rest => reAddMember m (genId k) (genCode k) now :: reAddMembers rest genId genCode (k + 1) now

/-- The spec's member-uniqueness invariant: no two stored members share an
email, and none share a phone. -/
def MemberUnique (s : DBState) : Prop :=
  (s.members.map (fun m => m.email)).Nodup ∧ (s.members.map (fun m => m.phone)).Nodup

instance (s : DBState) : Decidable (MemberUnique s) := by
  unfold MemberUnique; infer_instance

/-- An injective id stream for import witnesses. -/
def genIdA (k : Nat) : String := String.mk (List.replicate k 'a')

/-- A second injective id stream. -/
def genIdB (k : Nat) : String := String.mk (List.replicate k 'b')

/-- A third injective id stream. -/
def genIdC (k : Nat) : String := String.mk (List.replicate k 'c')

/-- An outstanding, not-yet-due issue of `exBook1` to `exMember1`. -/
def exIssueIssued : Issue :=
  { id := "i1", bookId := "b1", memberId := "m1", bookTitle := "T", memberName := "N",
    issueDate := 0, dueDate := 10, returnDate := none, status := .issued,
    createdAt := 0, updatedAt := 0 }

/-- A store with one book, one member, and one outstanding issue. -/
def exStateFull : DBState :=
  { books := [exBook1], members := [exMember1], issues := [exIssueIssued],
    settings := defaultSettings }

/-- A store with two members whose emails and phones are pairwise
distinct. -/
def exStateTwoMembers : DBState :=
  { books := [], members := [exMember1, exMember2], issues := [],
    settings := defaultSettings }

/-- `exMember2` after `updateMember` overwrote its email with
`exMember1`'s email. -/
def exMember2Dup : Member := { exMember2 with email := "a@x", updatedAt := 5 }

/-- The store produced by that `updateMember` call: two members now share
the email `"a@x"`. -/
def exStateDup : DBState := { exStateTwoMembers with members := [exMember1, exMember2Dup] }

/-- The book stored by `addBook exEmpty exBookData "b1" 0`: all copies
available even though the request said `availableCopies = 0`. -/
def exBookStored : Book :=
  { id := "b1", title := "T", author := "A", category := "C", publicationYear := 2000,
    isbn := none, totalCopies := 2, availableCopies := 2, createdAt := 0, updatedAt := 0 }

/-- The store produced by that `addBook` call. -/
def exStateAfterAdd : DBState :=
  { books := [exBookStored], members := [], issues := [], settings := defaultSettings }

/-- The store produced by `importData exEmpty (exportData exStateFull)`
with the `genIdA`/`genIdB`/`genIdC` id streams at time 7: the book comes
back under a fresh id with `availableCopies` reset to 2 (it was 1), the
member comes back under fresh ids, and the issue is gone. -/
def exStateImported : DBState :=
  { books := [{ id := "", title := "T", author := "A", category := "C",
                publicationYear := 2000, isbn := none, totalCopies := 2,
                availableCopies := 2, createdAt := 7, updatedAt := 7 }],
    members := [{ id := "", memberId := "", name := "N", phone := "111", email := "a@x",
                  address := none, createdAt := 7, updatedAt := 7 }],
    issues := [],
    settings := { defaultSettings with updatedAt := 7 } }

/-- A store where `exMember1` is exactly at the loan limit with a
status-`'issued'` record (`maxBooksPerMember = 1`). -/
def exStateAtLimit : DBState :=
  { books := [exBook1], members := [exMember1], issues := [exIssueIssued],
    settings := { defaultSettings with maxBooksPerMember := 1 } }

/-! ### Helper lemmas about the keyed stores -/

theorem putById_of_find? {α : Type} (key : α → String) (l : List α) (x a : α)
    (h : l.find? (fun y => key y == key x) = some a) :
    putById key l x = l.map (fun y => if key y == key x then x else y) := by
  unfold putById
  rw [if_pos]
  rw [List.any_eq_true]
  refine ⟨a, List.mem_of_find?_eq_some h, ?_⟩
  have ha := List.find?_some h
  simpa using ha

theorem find?_replace_same {α : Type} (key : α → String) (l : List α) (x a : α)
    (h : l.find? (fun y => key y == key x) = some a) :
    (l.map (fun y => if key y == key x then x else y)).find?
      (fun y => key y == key x) = some x := by
  have hqf : ((fun y => key y == key x) ∘ (fun y => if key y == key x then x else y)) =
      (fun y => key y == key x) := by
    funext y
    by_cases hy : key y = key x
    · simp [Function.comp_apply, hy]
    · simp [Function.comp_apply, hy]
  rw [List.find?_map, hqf, h]
  have ha : key a = key x := by simpa using List.find?_some h
  simp [ha]

theorem find?_replace_other {α : Type} (key : α → String) (l : List α) (x : α)
    (k : String) (hk : ¬ k = key x) :
    (l.map (fun y => if key y == key x then x else y)).find? (fun y => key y == k) =
      l.find? (fun y => key y == k) := by
  have hqf : ((fun y => key y == k) ∘ (fun y => if key y == key x then x else y)) =
      (fun y => key y == k) := by
    funext y
    by_cases hy : key y = key x
    · simp [Function.comp_apply, hy]
    · simp [Function.comp_apply, hy]
  rw [List.find?_map, hqf]
  cases hfind : l.find? (fun y => key y == k) with
  | none => simp
  | some a =>
    have ha : key a = k := by simpa using List.find?_some hfind
    have hax : ¬ key a = key x := by
      rw [ha]
      exact hk
    simp [hax]

/-! ### Basic facts about the add operations -/

theorem addBook_ok (s : DBState) (bd : BookData) (newId : String) (now : Time)
    (s' : DBState) (b : Book) (h : addBook s bd newId now = .ok (s', b)) :
    s'.books = s.books ++ [b] ∧ b.availableCopies = b.totalCopies ∧
    s'.members = s.members ∧ s'.issues = s.issues ∧ s'.settings = s.settings ∧
    b = { id := newId, title := bd.title, author := bd.author, category := bd.category,
          publicationYear := bd.publicationYear, isbn := bd.isbn,
          totalCopies := bd.totalCopies, availableCopies := bd.totalCopies,
          createdAt := now, updatedAt := now } := by
  simp only [addBook] at h
  split at h
  · exact absurd h (by simp)
  · simp only [Except.ok.injEq, Prod.mk.injEq] at h
    obtain ⟨hs, hb⟩ := h
    subst hs
    subst hb
    exact ⟨rfl, rfl, rfl, rfl, rfl, rfl⟩

theorem addMember_ok (s : DBState) (md : MemberData) (newId newCode : String) (now : Time)
    (s' : DBState) (m : Member) (h : addMember s md newId newCode now = .ok (s', m)) :
    s'.members = s.members ++ [m] ∧ s'.books = s.books ∧ s'.issues = s.issues ∧
    s'.settings = s.settings ∧
    s.members.any (fun x => x.email == md.email) = false ∧
    s.members.any (fun x => x.phone == md.phone) = false ∧
    m = { id := newId, memberId := newCode, name := md.name, phone := md.phone,
          email := md.email, address := md.address, createdAt := now, updatedAt := now } := by
  simp only [addMember] at h
  split at h
  · exact absurd h (by simp)
  · rename_i hemail
    split at h
    · exact absurd h (by simp)
    · rename_i hphone
      split at h
      · exact absurd h (by simp)
      · simp only [Except.ok.injEq, Prod.mk.injEq] at h
        obtain ⟨hs, hm⟩ := h
        subst hs
        subst hm
        refine ⟨rfl, rfl, rfl, rfl, ?_, ?_, rfl⟩
        · simpa using hemail
        · simpa using hphone

/-! ### The book-import loop -/

theorem importBooksLoop_avail (genId : Nat → String) (now : Time) :
    ∀ (bs : List Book) (st : DBState) (k : Nat) (st' : DBState),
    (∀ b ∈ st.books, b.availableCopies = b.totalCopies) →
    importBooksLoop st bs genId k now = .ok st' →
    ∀ b ∈ st'.books, b.availableCopies = b.totalCopies := by
  intro bs
  induction bs with
  | nil =>
    intro st k st' h0 h
    have hst : st = st' := by simpa [importBooksLoop] using h
    subst hst
    exact h0
  | cons b rest ih =>
    intro st k st' h0 h
    unfold importBooksLoop at h
    rcases hadd : addBook st
        ⟨b.title, b.author, b.category, b.publicationYear, b.isbn,
         b.totalCopies, b.availableCopies⟩ (genId k) now with e | pair
    · rw [hadd] at h
      simp at h
    · rw [hadd] at h
      obtain ⟨st2, bk⟩ := pair
      obtain ⟨hbooks, havail, -, -, -, -⟩ := addBook_ok _ _ _ _ _ _ hadd
      refine ih st2 (k + 1) st' ?_ h
      intro bb hbb
      rw [hbooks] at hbb
      rcases List.mem_append.1 hbb with h1 | h1
      · exact h0 bb h1
      · rw [List.mem_singleton] at h1
        subst h1
        exact havail

theorem importMembersLoop_books (genId genCode : Nat → String) (now : Time) :
    ∀ (ms : List Member) (st : DBState) (k : Nat),
    (importMembersLoop st ms genId genCode k now).books = st.books := by
  intro ms
  induction ms with
  | nil => intro st k; simp [importMembersLoop]
  | cons m rest ih =>
    intro st k
    unfold importMembersLoop
    rcases hadd : addMember st ⟨m.name, m.phone, m.email, m.address⟩
        (genId k) (genCode k) now with e | pair
    · exact ih st (k + 1)
    · obtain ⟨st2, mm⟩ := pair
      obtain ⟨-, hbooks, -, -, -, -, -⟩ := addMember_ok _ _ _ _ _ _ _ hadd
      rw [ih st2 (k + 1), hbooks]

/-! ### C10 -/

/-- C10: every successfully added book is stored with
`availableCopies = totalCopies`, whatever `availableCopies` value the
caller supplied; and after a successful `importData` every stored book
likewise has all copies available. -/
theorem c10_new_books_start_full (s : DBState) (bd : BookData) (newId : String) (now : Time)
    (s' : DBState) (b : Book)
    (sI : DBState) (data : ExportDoc) (bookGen memberGen codeGen : Nat → String)
    (nowI : Time) (sI' : DBState)
    (hAdd : addBook s bd newId now = .ok (s', b))
    (hImp : importData sI data bookGen memberGen codeGen nowI = .ok sI') :
    (b.availableCopies = b.totalCopies ∧ b ∈ s'.books) ∧
    (∀ bb ∈ sI'.books, bb.availableCopies = bb.totalCopies) := by
  obtain ⟨hbooks, havail, -, -, -, -⟩ := addBook_ok _ _ _ _ _ _ hAdd
  constructor
  · refine ⟨havail, ?_⟩
    rw [hbooks]
    exact List.mem_append_right _ (List.mem_singleton_self _)
  · unfold importData at hImp
    rcases hloop : importBooksLoop (clearAllData sI) data.books bookGen 0 nowI with e | s1
    · rw [hloop] at hImp
      simp at hImp
    · rw [hloop] at hImp
      simp only [Except.ok.injEq] at hImp
      have h1 : ∀ bb ∈ s1.books, bb.availableCopies = bb.totalCopies :=
        importBooksLoop_avail bookGen nowI data.books (clearAllData sI) 0 s1
          (by simp [clearAllData]) hloop
      have hb2 : sI'.books = s1.books := by
        rw [← hImp]
        simpa [saveSettings] using
          importMembersLoop_books memberGen codeGen nowI data.members s1 0
      intro bb hbb
      exact h1 bb (hb2 ▸ hbb)

/-- Witness for C10: adding a book that claims zero available copies
stores it with both copies available, and a round-trip import leaves every
book fully available. -/
theorem c10_witness :
    exBookStored.availableCopies = exBookStored.totalCopies ∧
    exBookStored ∈ exStateAfterAdd.books :=
  (c10_new_books_start_full exEmpty exBookData "b1" 0 exStateAfterAdd exBookStored
    exEmpty (exportData exStateFull) genIdA genIdB genIdC 7 exStateImported
    (by decide) (by decide)).1

/-! ### The return path -/

theorem returnBook_not_found (s : DBState) (issueId : String) (now : Time)
    (h : s.issues.find? (fun i => i.id == issueId) = none) :
    returnBook s issueId now = (s, .error .issueNotFound) := by
  unfold returnBook
  rw [h]

theorem returnBook_already_returned (s : DBState) (issueId : String) (now : Time) (i : Issue)
    (h : s.issues.find? (fun j => j.id == issueId) = some i)
    (hret : i.status = .returned) :
    returnBook s issueId now = (s, .error .alreadyReturned) := by
  unfold returnBook
  rw [h]
  simp [hret]

theorem updateBookAvailability_found (s : DBState) (bookId : String) (change : Int)
    (now : Time) (b : Book)
    (hbook : s.books.find? (fun bb => bb.id == bookId) = some b) :
    updateBookAvailability s bookId change now =
      .ok { s with books := s.books.map (fun bb =>
        if bb.id == bookId then
          { b with availableCopies := max 0 (min b.totalCopies (b.availableCopies + change)),
                   updatedAt := now }
        else bb) } := by
  have hbid : b.id = bookId := by simpa using List.find?_some hbook
  unfold updateBookAvailability getBookById
  split
  next heq =>
    rw [hbook] at heq
    exact absurd heq (by simp)
  next bk heq =>
    rw [hbook] at heq
    injection heq with heq
    subst heq
    unfold updateBook
    split
    next heq2 =>
      rw [hbook] at heq2
      exact absurd heq2 (by simp)
    next bk2 heq2 =>
      rw [hbook] at heq2
      injection heq2 with heq2
      subst heq2
      simp only [applyBookUpdates, Except.map]
      rw [putById_of_find? (fun bb => bb.id) s.books _ b (by simpa [hbid] using hbook)]
      simp [hbid]

theorem returnBook_success (s : DBState) (issueId : String) (now : Time) (i : Issue) (b : Book)
    (hfind : s.issues.find? (fun j => j.id == issueId) = some i)
    (hnotret : ¬ i.status = .returned)
    (hbook : s.books.find? (fun bb => bb.id == i.bookId) = some b) :
    returnBook s issueId now =
      ({ s with
          issues := s.issues.map (fun j =>
            if j.id == issueId then
              { i with returnDate := some now,
                       status := if now > i.dueDate then .overdue else .returned,
                       updatedAt := now }
            else j),
          books := s.books.map (fun bb =>
            if bb.id == i.bookId then
              { b with availableCopies := max 0 (min b.totalCopies (b.availableCopies + 1)),
                       updatedAt := now }
            else bb) },
       .ok { i with returnDate := some now,
                    status := if now > i.dueDate then .overdue else .returned,
                    updatedAt := now }) := by
  have hid : i.id = issueId := by simpa using List.find?_some hfind
  have hst : ¬ (i.status == IssueStatus.returned) = true := by simpa using hnotret
  have hup := updateBookAvailability_found
      { s with
        issues := (putById (fun j => j.id) s.issues
          { i with
            returnDate := some now,
            status := if now > i.dueDate then IssueStatus.overdue else IssueStatus.returned,
            updatedAt := now }) }
      i.bookId 1 now b hbook
  unfold returnBook
  split
  next heq =>
    rw [hfind] at heq
    exact absurd heq (by simp)
  next iFound heq =>
    rw [hfind] at heq
    injection heq with heq
    subst heq
    rw [if_neg hst]
    simp only []
    rw [hup]
    simp only []
    rw [putById_of_find? (fun j => j.id) s.issues _ i (by simpa [hid] using hfind)]
    simp [hid]

theorem find?_update_self (l : List Book) (t : String) (x a : Book)
    (hx : x.id = t) (h : l.find? (fun bb => bb.id == t) = some a) :
    (l.map (fun bb => if bb.id == t then x else bb)).find? (fun bb => bb.id == t) =
      some x := by
  subst hx
  exact find?_replace_same (fun bb => bb.id) l x a h

/-! ### C3 -/

/-- C3 counterexample: the issue `exIssueLateRet` already has a recorded
return (`returnDate = some 20`, status `'overdue'` because it came back
late), yet calling `returnBook` on it again succeeds instead of failing. -/
theorem c3_counterexample :
    exIssueLateRet.returnDate = some 20 ∧
    (returnBook exStateLateRet "i1" 30).2 =
      .ok { exIssueLateRet with returnDate := some 30, updatedAt := 30 } := by
  decide

/-- C3 (amended): `returnBook` fails precisely when the issue id is absent
or the stored issue's status is `'returned'`. The already-returned check
inspects only the status, never `returnDate`, so an issue whose return was
recorded late (status `'overdue'`, `returnDate` set) is accepted again
whenever its book exists. -/
theorem c3_return_failure_conditions (s : DBState) (issueId : String) (now : Time) :
    (s.issues.find? (fun i => i.id == issueId) = none →
      (returnBook s issueId now).2 = .error .issueNotFound) ∧
    (∀ i, s.issues.find? (fun i2 => i2.id == issueId) = some i → i.status = .returned →
      (returnBook s issueId now).2 = .error .alreadyReturned) ∧
    (∀ i b, s.issues.find? (fun i2 => i2.id == issueId) = some i →
      ¬ i.status = .returned → s.books.find? (fun bb => bb.id == i.bookId) = some b →
      (returnBook s issueId now).2 =
        .ok { i with returnDate := some now,
                     status := if now > i.dueDate then .overdue else .returned,
                     updatedAt := now }) := by
  refine ⟨?_, ?_, ?_⟩
  · intro h
    rw [returnBook_not_found s issueId now h]
  · intro i h hret
    rw [returnBook_already_returned s issueId now i h hret]
  · intro i b h hnr hbook
    rw [returnBook_success s issueId now i b h hnr hbook]

/-- Witness for C3: a return of a nonexistent issue id fails with the
not-found error. -/
theorem c3_witness :
    (returnBook exStateLateRet "zz" 30).2 = .error .issueNotFound :=
  (c3_return_failure_conditions exStateLateRet "zz" 30).1 (by decide)

/-! ### C6 -/

/-- C6: for an existing issue whose status is not `'returned'` (which
covers every issue with no recorded return), `returnBook` succeeds: it
stamps `returnDate := now`, sets the status to `'returned'` when
`now ≤ dueDate` and `'overdue'` otherwise, and gives the referenced book
one copy back, capped at `totalCopies` — whether or not the return is
late. -/
theorem c6_return_success (s : DBState) (issueId : String) (now : Time) (i : Issue) (b : Book)
    (hfind : s.issues.find? (fun j => j.id == issueId) = some i)
    (hnotret : ¬ i.status = .returned)
    (hbook : getBookById s i.bookId = some b)
    (h0 : 0 ≤ b.availableCopies) (h1 : b.availableCopies ≤ b.totalCopies) :
    (returnBook s issueId now).2 =
      .ok { i with returnDate := some now,
                   status := if now > i.dueDate then .overdue else .returned,
                   updatedAt := now } ∧
    getBookById (returnBook s issueId now).1 i.bookId =
      some { b with availableCopies := min b.totalCopies (b.availableCopies + 1),
                    updatedAt := now } := by
  rw [getBookById] at hbook
  have hbid : b.id = i.bookId := by simpa using List.find?_some hbook
  have hclamp : max 0 (min b.totalCopies (b.availableCopies + 1)) =
      min b.totalCopies (b.availableCopies + 1) :=
    max_eq_right (le_min (le_trans h0 h1) (by omega))
  have hres := returnBook_success s issueId now i b hfind hnotret hbook
  rw [hres]
  refine ⟨rfl, ?_⟩
  rw [getBookById]
  simp only [hclamp]
  exact find?_update_self s.books i.bookId _ b (by simpa using hbid) hbook

/-- Witness for C6: a late return of the outstanding issue succeeds, is
marked `'overdue'`, and restores the book's available copies to 2. -/
theorem c6_witness :
    (returnBook exStateFull "i1" 20).2 =
      .ok { exIssueIssued with returnDate := some 20, status := .overdue, updatedAt := 20 } ∧
    getBookById (returnBook exStateFull "i1" 20).1 "b1" =
      some { exBook1 with availableCopies := 2, updatedAt := 20 } := by
  have h := c6_return_success exStateFull "i1" 20 exIssueIssued exBook1
    (by decide) (by decide) (by decide) (by decide) (by decide)
  exact ⟨h.1, h.2⟩

/-! ### C4 -/

theorem issueBook_no_book (s : DBState) (d : IssueRequest) (newId : String) (now : Time)
    (h : getBookById s d.bookId = none) :
    issueBook s d newId now = (s, .error .bookNotFound) := by
  unfold issueBook
  rw [h]

theorem issueBook_no_member (s : DBState) (d : IssueRequest) (newId : String) (now : Time)
    (b : Book) (hb : getBookById s d.bookId = some b)
    (hm : getMemberById s d.memberId = none) :
    issueBook s d newId now = (s, .error .memberNotFound) := by
  unfold issueBook
  rw [hb, hm]

theorem issueBook_no_copies (s : DBState) (d : IssueRequest) (newId : String) (now : Time)
    (b : Book) (m : Member) (hb : getBookById s d.bookId = some b)
    (hm : getMemberById s d.memberId = some m) (hzero : b.availableCopies ≤ 0) :
    issueBook s d newId now = (s, .error .noCopiesAvailable) := by
  unfold issueBook
  split
  next heq =>
    rw [hb] at heq
    exact absurd heq (by simp)
  next bk heq =>
    rw [hb] at heq
    injection heq with heq
    subst heq
    split
    next heq2 =>
      rw [hm] at heq2
      exact absurd heq2 (by simp)
    next mm heq2 =>
      rw [hm] at heq2
      injection heq2 with heq2
      subst heq2
      rw [if_pos hzero]

theorem issueBook_limit (s : DBState) (d : IssueRequest) (newId : String) (now : Time)
    (b : Book) (m : Member) (hb : getBookById s d.bookId = some b)
    (hm : getMemberById s d.memberId = some m) (hpos : ¬ b.availableCopies ≤ 0)
    (hlimit : ((getMemberIssues s d.memberId).length : Int) ≥ s.settings.maxBooksPerMember) :
    issueBook s d newId now = (s, .error .memberLimitReached) := by
  unfold issueBook
  split
  next heq =>
    rw [hb] at heq
    exact absurd heq (by simp)
  next bk heq =>
    rw [hb] at heq
    injection heq with heq
    subst heq
    split
    next heq2 =>
      rw [hm] at heq2
      exact absurd heq2 (by simp)
    next mm heq2 =>
      rw [hm] at heq2
      injection heq2 with heq2
      subst heq2
      rw [if_neg hpos]
      simp only []
      rw [if_pos hlimit]

theorem issueBook_success (s : DBState) (d : IssueRequest) (newId : String) (now : Time)
    (b : Book) (m : Member)
    (hb : getBookById s d.bookId = some b)
    (hm : getMemberById s d.memberId = some m)
    (hpos : ¬ b.availableCopies ≤ 0)
    (hlimit : ¬ ((getMemberIssues s d.memberId).length : Int) ≥ s.settings.maxBooksPerMember)
    (hfresh : s.issues.any (fun i => i.id == newId) = false) :
    issueBook s d newId now =
      ({ s with
          issues := s.issues ++
            [{ id := newId, bookId := d.bookId, memberId := d.memberId,
               bookTitle := b.title, memberName := m.name, issueDate := now,
               dueDate := d.dueDate.getD
                 (now + s.settings.defaultLoanDuration * (24 * 60 * 60 * 1000)),
               returnDate := none, status := .issued, createdAt := now, updatedAt := now }],
          books := s.books.map (fun bb =>
            if bb.id == d.bookId then
              { b with availableCopies := max 0 (min b.totalCopies (b.availableCopies + (-1))),
                       updatedAt := now }
            else bb) },
       .ok { id := newId, bookId := d.bookId, memberId := d.memberId,
             bookTitle := b.title, memberName := m.name, issueDate := now,
             dueDate := d.dueDate.getD
               (now + s.settings.defaultLoanDuration * (24 * 60 * 60 * 1000)),
             returnDate := none, status := .issued, createdAt := now, updatedAt := now }) := by
  have hup := updateBookAvailability_found
      { s with
        issues := (s.issues ++
          [{ id := newId, bookId := d.bookId, memberId := d.memberId,
             bookTitle := b.title, memberName := m.name, issueDate := now,
             dueDate := d.dueDate.getD
               (now + s.settings.defaultLoanDuration * (24 * 60 * 60 * 1000)),
             returnDate := none, status := IssueStatus.issued, createdAt := now,
             updatedAt := now }]) }
      d.bookId (-1) now b hb
  unfold issueBook
  split
  next heq =>
    rw [hb] at heq
    exact absurd heq (by simp)
  next bk heq =>
    rw [hb] at heq
    injection heq with heq
    subst heq
    split
    next heq2 =>
      rw [hm] at heq2
      exact absurd heq2 (by simp)
    next mm heq2 =>
      rw [hm] at heq2
      injection heq2 with heq2
      subst heq2
      rw [if_neg hpos]
      simp only []
      rw [if_neg hlimit]
      rw [hfresh]
      simp only [Bool.false_eq_true, if_false]
      rw [hup]

/-- C4 counterexample: in `exStateNoSuchMember` the requested book exists
with an available copy and the requesting member id holds no issues, so
none of the claim's three failure conditions holds — yet `issueBook`
fails, because the member record `"m9"` does not exist. -/
theorem c4_counterexample :
    (issueBook exStateNoSuchMember { bookId := "b1", memberId := "m9", dueDate := none }
        "i9" 0).2 = .error .memberNotFound ∧
    getBookById exStateNoSuchMember "b1" = some exBook1 ∧
    exBook1.availableCopies = 1 ∧
    (getMemberIssues exStateNoSuchMember "m9").length = 0 ∧
    exStateNoSuchMember.settings.maxBooksPerMember = 3 := by
  decide

/-- C4 (amended): provided the generated issue id is fresh and the book
counters satisfy their invariant, `issueBook` fails exactly when the book
does not exist, the member does not exist, the book has no available
copies, or the member already holds at least `maxBooksPerMember` issues of
status `'issued'`; otherwise it succeeds, creating an issue with status
`'issued'` and due date defaulting to the issue date plus the configured
loan duration in days, and decrements the book's `availableCopies` by
one. -/
theorem c4_issue_conditions (s : DBState) (d : IssueRequest) (newId : String) (now : Time)
    (hfresh : s.issues.any (fun i => i.id == newId) = false)
    (hinv : BookInv s) :
    (getBookById s d.bookId = none → (issueBook s d newId now).2 = .error .bookNotFound) ∧
    (∀ b, getBookById s d.bookId = some b → getMemberById s d.memberId = none →
      (issueBook s d newId now).2 = .error .memberNotFound) ∧
    (∀ b m, getBookById s d.bookId = some b → getMemberById s d.memberId = some m →
      b.availableCopies = 0 → (issueBook s d newId now).2 = .error .noCopiesAvailable) ∧
    (∀ b m, getBookById s d.bookId = some b → getMemberById s d.memberId = some m →
      0 < b.availableCopies →
      ((getMemberIssues s d.memberId).length : Int) ≥ s.settings.maxBooksPerMember →
      (issueBook s d newId now).2 = .error .memberLimitReached) ∧
    (∀ b m, getBookById s d.bookId = some b → getMemberById s d.memberId = some m →
      0 < b.availableCopies →
      ((getMemberIssues s d.memberId).length : Int) < s.settings.maxBooksPerMember →
      (issueBook s d newId now).2 =
        .ok { id := newId, bookId := d.bookId, memberId := d.memberId,
              bookTitle := b.title, memberName := m.name, issueDate := now,
              dueDate := d.dueDate.getD
                (now + s.settings.defaultLoanDuration * (24 * 60 * 60 * 1000)),
              returnDate := none, status := .issued, createdAt := now, updatedAt := now } ∧
      getBookById (issueBook s d newId now).1 d.bookId =
        some { b with availableCopies := b.availableCopies - 1, updatedAt := now }) := by
  refine ⟨?_, ?_, ?_, ?_, ?_⟩
  · intro h
    rw [issueBook_no_book s d newId now h]
  · intro b hb hm
    rw [issueBook_no_member s d newId now b hb hm]
  · intro b m hb hm hzero
    rw [issueBook_no_copies s d newId now b m hb hm (by omega)]
  · intro b m hb hm hposi hlim
    rw [issueBook_limit s d newId now b m hb hm (by omega) hlim]
  · intro b m hb hm hposi hlim
    obtain ⟨hb0, hb1⟩ := hinv b (List.mem_of_find?_eq_some hb)
    have hbid : b.id = d.bookId := by
      simpa using List.find?_some hb
    have hres := issueBook_success s d newId now b m hb hm (by omega) (by omega) hfresh
    rw [hres]
    refine ⟨rfl, ?_⟩
    have hc : max 0 (min b.totalCopies (b.availableCopies + (-1))) =
        b.availableCopies - 1 := by
      have h1 : b.availableCopies + (-1) = b.availableCopies - 1 := by ring
      rw [h1, min_eq_right (by omega), max_eq_right (by omega)]
    rw [getBookById]
    simp only [hc]
    exact find?_update_self s.books d.bookId _ b hbid hb

/-- Witness for C4: issuing the available book to the existing member
succeeds with status `'issued'` and the default 14-day due date. -/
theorem c4_witness :
    (issueBook exStateFull { bookId := "b1", memberId := "m1", dueDate := none } "i2" 0).2 =
      .ok { id := "i2", bookId := "b1", memberId := "m1", bookTitle := "T",
            memberName := "N", issueDate := 0, dueDate := 1209600000, returnDate := none,
            status := .issued, createdAt := 0, updatedAt := 0 } := by
  have h := (c4_issue_conditions exStateFull
      { bookId := "b1", memberId := "m1", dueDate := none } "i2" 0
      (by decide) (by decide)).2.2.2.2 exBook1 exMember1
      (by decide) (by decide) (by decide) (by decide)
  exact h.1

/-! ### C9 -/

theorem nodup_append_single {α : Type} (l : List α) (x : α) (h : l.Nodup) (hx : ¬ x ∈ l) :
    (l ++ [x]).Nodup := by
  rw [List.nodup_append]
  refine ⟨h, List.nodup_singleton x, ?_⟩
  intro a ha hax
  rw [List.mem_singleton] at hax
  subst hax
  exact hx ha

theorem addMember_unique (s : DBState) (md : MemberData) (newId newCode : String)
    (now : Time) (s' : DBState) (m : Member) (hU : MemberUnique s)
    (h : addMember s md newId newCode now = .ok (s', m)) : MemberUnique s' := by
  obtain ⟨hmem, -, -, -, hem, hph, hmval⟩ := addMember_ok _ _ _ _ _ _ _ h
  obtain ⟨hU1, hU2⟩ := hU
  subst hmval
  constructor
  · rw [hmem, List.map_append]
    refine nodup_append_single _ _ hU1 ?_
    rw [List.mem_map]
    rintro ⟨y, hy, hye⟩
    have hcontra := List.any_eq_false.1 hem y hy
    simp only [List.map_cons, List.map_nil] at hye
    simp [hye] at hcontra
  · rw [hmem, List.map_append]
    refine nodup_append_single _ _ hU2 ?_
    rw [List.mem_map]
    rintro ⟨y, hy, hye⟩
    have hcontra := List.any_eq_false.1 hph y hy
    simp only [List.map_cons, List.map_nil] at hye
    simp [hye] at hcontra

theorem importMembersLoop_unique (genId genCode : Nat → String) (now : Time) :
    ∀ (ms : List Member) (st : DBState) (k : Nat),
    MemberUnique st → MemberUnique (importMembersLoop st ms genId genCode k now) := by
  intro ms
  induction ms with
  | nil =>
    intro st k h
    simpa [importMembersLoop] using h
  | cons m rest ih =>
    intro st k h
    unfold importMembersLoop
    rcases hadd : addMember st ⟨m.name, m.phone, m.email, m.address⟩
        (genId k) (genCode k) now with e | pair
    · exact ih st (k + 1) h
    · obtain ⟨st2, mm⟩ := pair
      exact ih st2 (k + 1) (addMember_unique st _ _ _ now st2 mm h hadd)

theorem importBooksLoop_members (genId : Nat → String) (now : Time) :
    ∀ (bs : List Book) (st : DBState) (k : Nat) (st' : DBState),
    importBooksLoop st bs genId k now = .ok st' → st'.members = st.members := by
  intro bs
  induction bs with
  | nil =>
    intro st k st' h
    have hst : st = st' := by simpa [importBooksLoop] using h
    subst hst
    rfl
  | cons b rest ih =>
    intro st k st' h
    unfold importBooksLoop at h
    rcases hadd : addBook st
        ⟨b.title, b.author, b.category, b.publicationYear, b.isbn,
         b.totalCopies, b.availableCopies⟩ (genId k) now with e | pair
    · rw [hadd] at h
      simp at h
    · rw [hadd] at h
      obtain ⟨st2, bk⟩ := pair
      obtain ⟨-, -, hmems, -, -, -⟩ := addBook_ok _ _ _ _ _ _ hadd
      rw [ih st2 (k + 1) st' h, hmems]

/-- C9 counterexample: `exStateTwoMembers` satisfies the uniqueness
invariant, yet `updateMember` freely overwrites the second member's email
with the first member's email and succeeds, leaving two members with the
same email. -/
theorem c9_counterexample :
    MemberUnique exStateTwoMembers ∧
    updateMember exStateTwoMembers "m2" { email := some "a@x" } 5 =
      .ok (exStateDup, exMember2Dup) ∧
    ¬ MemberUnique exStateDup := by
  decide

/-- C9 (amended): `addMember` fails with a constraint violation on a
duplicate email or phone and preserves the invariant that no two stored
members share an email or a phone; `importData` also preserves it (its
member loop re-adds through `addMember`, skipping failures). `updateMember`
performs no uniqueness check, so member updates can create duplicates. -/
theorem c9_member_uniqueness (s : DBState) (md : MemberData) (newId newCode : String)
    (now : Time) (data : ExportDoc) (bookGen memberGen codeGen : Nat → String)
    (nowI : Time) (hU : MemberUnique s) :
    (s.members.any (fun x => x.email == md.email) = true →
      addMember s md newId newCode now = .error .emailExists) ∧
    (s.members.any (fun x => x.email == md.email) = false →
      s.members.any (fun x => x.phone == md.phone) = true →
      addMember s md newId newCode now = .error .phoneExists) ∧
    (∀ s' m, addMember s md newId newCode now = .ok (s', m) → MemberUnique s') ∧
    (∀ s', importData s data bookGen memberGen codeGen nowI = .ok s' → MemberUnique s') := by
  refine ⟨?_, ?_, ?_, ?_⟩
  · intro h
    unfold addMember
    rw [if_pos h]
  · intro h1 h2
    unfold addMember
    rw [if_neg (by simp [h1]), if_pos h2]
  · intro s' m h
    exact addMember_unique s md newId newCode now s' m hU h
  · intro s' h
    unfold importData at h
    rcases hloop : importBooksLoop (clearAllData s) data.books bookGen 0 nowI with e | s1
    · rw [hloop] at h
      simp at h
    · rw [hloop] at h
      simp only [Except.ok.injEq] at h
      have hm1 : s1.members = [] := by
        rw [importBooksLoop_members bookGen nowI data.books (clearAllData s) 0 s1 hloop]
        rfl
      have hu1 : MemberUnique s1 := by
        unfold MemberUnique
        rw [hm1]
        exact ⟨List.nodup_nil, List.nodup_nil⟩
      have hu2 := importMembersLoop_unique memberGen codeGen nowI data.members s1 0 hu1
      rw [← h]
      exact hu2

/-- Witness for C9: adding a member whose email is already stored fails
with the duplicate-email constraint violation. -/
theorem c9_witness :
    addMember exStateTwoMembers
      { name := "X", phone := "999", email := "a@x", address := none } "m3" "LIB3" 9 =
      .error .emailExists :=
  (c9_member_uniqueness exStateTwoMembers
      { name := "X", phone := "999", email := "a@x", address := none } "m3" "LIB3" 9
      (exportData exEmpty) genIdA genIdB genIdC 0 (by decide)).1 (by decide)

/-! ### C5 -/

theorem issueBook_id_conflict (s : DBState) (d : IssueRequest) (newId : String) (now : Time)
    (b : Book) (m : Member) (hb : getBookById s d.bookId = some b)
    (hm : getMemberById s d.memberId = some m) (hpos : ¬ b.availableCopies ≤ 0)
    (hlimit : ¬ ((getMemberIssues s d.memberId).length : Int) ≥ s.settings.maxBooksPerMember)
    (hany : s.issues.any (fun i => i.id == newId) = true) :
    issueBook s d newId now = (s, .error .addIssueFailed) := by
  unfold issueBook
  split
  next heq =>
    rw [hb] at heq
    exact absurd heq (by simp)
  next bk heq =>
    rw [hb] at heq
    injection heq with heq
    subst heq
    split
    next heq2 =>
      rw [hm] at heq2
      exact absurd heq2 (by simp)
    next mm heq2 =>
      rw [hm] at heq2
      injection heq2 with heq2
      subst heq2
      rw [if_neg hpos]
      simp only []
      rw [if_neg hlimit, if_pos hany]

/-- C5 counterexample: in `exStateOverdueHeld` the member holds
`maxBooksPerMember = 1` not-yet-returned books (the single issue has no
`returnDate`), but its status was swept to `'overdue'`, so the limit check
does not count it and `issueBook` for that member succeeds instead of
failing. -/
theorem c5_counterexample :
    exStateOverdueHeld.settings.maxBooksPerMember = 1 ∧
    exStateOverdueHeld.issues = [exIssueOverdueHeld] ∧
    exIssueOverdueHeld.memberId = "m1" ∧
    exIssueOverdueHeld.returnDate = none ∧
    isErr (issueBook exStateOverdueHeld
      { bookId := "b1", memberId := "m1", dueDate := none } "i2" 30).2 = false := by
  decide

/-- C5 (amended): the loan limit counts only issues whose status is
exactly `'issued'`. A member whose `'issued'` count has reached
`maxBooksPerMember` cannot receive another issue, and `issueBook`
preserves the bound `count ≤ maxBooksPerMember` on every member's
`'issued'` count; unreturned issues already marked `'overdue'` do not
count toward the limit. -/
theorem c5_member_limit (s : DBState) (d : IssueRequest) (newId : String) (now : Time)
    (memberId : String) :
    (((getMemberIssues s d.memberId).length : Int) ≥ s.settings.maxBooksPerMember →
      isErr (issueBook s d newId now).2 = true) ∧
    (((getMemberIssues s memberId).length : Int) ≤ s.settings.maxBooksPerMember →
      ((getMemberIssues (issueBook s d newId now).1 memberId).length : Int) ≤
        s.settings.maxBooksPerMember) := by
  constructor
  · intro hlim
    rcases hb : getBookById s d.bookId with _ | b
    · rw [issueBook_no_book s d newId now hb]
      rfl
    · rcases hm : getMemberById s d.memberId with _ | m
      · rw [issueBook_no_member s d newId now b hb hm]
        rfl
      · by_cases hpos : b.availableCopies ≤ 0
        · rw [issueBook_no_copies s d newId now b m hb hm hpos]
          rfl
        · rw [issueBook_limit s d newId now b m hb hm hpos hlim]
          rfl
  · intro hbound
    rcases hb : getBookById s d.bookId with _ | b
    · rw [issueBook_no_book s d newId now hb]
      exact hbound
    · rcases hm : getMemberById s d.memberId with _ | m
      · rw [issueBook_no_member s d newId now b hb hm]
        exact hbound
      · by_cases hpos : b.availableCopies ≤ 0
        · rw [issueBook_no_copies s d newId now b m hb hm hpos]
          exact hbound
        · by_cases hlim2 : ((getMemberIssues s d.memberId).length : Int) ≥
              s.settings.maxBooksPerMember
          · rw [issueBook_limit s d newId now b m hb hm hpos hlim2]
            exact hbound
          · rcases hany : s.issues.any (fun i => i.id == newId) with _ | _
            · rw [issueBook_success s d newId now b m hb hm hpos hlim2 hany]
              simp only [getMemberIssues] at hbound hlim2 ⊢
              rw [List.filter_append, List.length_append]
              by_cases hmem : memberId = d.memberId
              · subst hmem
                have hone : (List.filter
                    (fun issue => issue.memberId == d.memberId && issue.status == IssueStatus.issued)
                    ([{ id := newId, bookId := d.bookId, memberId := d.memberId,
                        bookTitle := b.title, memberName := m.name, issueDate := now,
                        dueDate := d.dueDate.getD
                          (now + s.settings.defaultLoanDuration * (24 * 60 * 60 * 1000)),
                        returnDate := none, status := .issued, createdAt := now,
                        updatedAt := now }] : List Issue)).length = 1 := by
                  simp
                rw [hone]
                rw [ge_iff_le, not_le] at hlim2
                omega
              · have hzero : (List.filter
                    (fun issue => issue.memberId == memberId && issue.status == IssueStatus.issued)
                    ([{ id := newId, bookId := d.bookId, memberId := d.memberId,
                        bookTitle := b.title, memberName := m.name, issueDate := now,
                        dueDate := d.dueDate.getD
                          (now + s.settings.defaultLoanDuration * (24 * 60 * 60 * 1000)),
                        returnDate := none, status := .issued, createdAt := now,
                        updatedAt := now }] : List Issue)).length = 0 := by
                  have hne : (d.memberId == memberId) = false := by
                    simp only [beq_eq_false_iff_ne]
                    exact fun hh => hmem hh.symm
                  simp [List.filter, hne]
                rw [hzero]
                omega
            · rw [issueBook_id_conflict s d newId now b m hb hm hpos hlim2 hany]
              exact hbound

/-- Witness for C5: a member holding one status-`'issued'` book under
`maxBooksPerMember = 1` cannot be issued another book. -/
theorem c5_witness :
    isErr (issueBook exStateAtLimit
      { bookId := "b1", memberId := "m1", dueDate := none } "i2" 0).2 = true :=
  (c5_member_limit exStateAtLimit
    { bookId := "b1", memberId := "m1", dueDate := none } "i2" 0 "m1").1 (by decide)

/-! ### C1 -/

theorem updateBookAvailability_inv (s : DBState) (bookId : String) (change : Int)
    (now : Time) (s' : DBState)
    (heq : updateBookAvailability s bookId change now = .ok s')
    (hI : BookInv s) : BookInv s' := by
  rcases hfind : getBookById s bookId with _ | b
  · unfold updateBookAvailability at heq
    rw [hfind] at heq
    simp at heq
  · rw [updateBookAvailability_found s bookId change now b hfind] at heq
    injection heq with heq
    subst heq
    intro bb hbb
    simp only [List.mem_map] at hbb
    obtain ⟨y, hy, hyeq⟩ := hbb
    by_cases hcase : (y.id == bookId) = true
    · rw [if_pos hcase] at hyeq
      subst hyeq
      obtain ⟨h0, h1⟩ := hI b (List.mem_of_find?_eq_some hfind)
      exact ⟨le_max_left 0 _, max_le (le_trans h0 h1) (min_le_left _ _)⟩
    · rw [if_neg hcase] at hyeq
      subst hyeq
      exact hI y hy

theorem issueBook_BookInv (s : DBState) (d : IssueRequest) (newId : String) (now : Time)
    (h : BookInv s) : BookInv (issueBook s d newId now).1 := by
  unfold issueBook
  repeat'
    first
      | split
      | simp only []
  all_goals
    first
      | exact h
      | (rename_i s2 heq
         exact updateBookAvailability_inv _ _ _ _ s2 heq h)

theorem returnBook_book_missing (s : DBState) (issueId : String) (now : Time) (i : Issue)
    (hfind : s.issues.find? (fun j => j.id == issueId) = some i)
    (hnotret : ¬ i.status = .returned)
    (hbook : s.books.find? (fun bb => bb.id == i.bookId) = none) :
    returnBook s issueId now =
      ({ s with
         issues := (putById (fun j => j.id) s.issues
           { i with
             returnDate := some now,
             status := if now > i.dueDate then IssueStatus.overdue else IssueStatus.returned,
             updatedAt := now }) },
       .error .bookNotFound) := by
  have hst : ¬ (i.status == IssueStatus.returned) = true := by simpa using hnotret
  have hupd : updateBookAvailability
      { s with
        issues := (putById (fun j => j.id) s.issues
          { i with
            returnDate := some now,
            status := if now > i.dueDate then IssueStatus.overdue else IssueStatus.returned,
            updatedAt := now }) }
      i.bookId 1 now = .error .bookNotFound := by
    unfold updateBookAvailability getBookById
    simp only []
    rw [hbook]
  unfold returnBook
  split
  next heq =>
    rw [hfind] at heq
    exact absurd heq (by simp)
  next iF heq =>
    rw [hfind] at heq
    injection heq with heq
    subst heq
    rw [if_neg hst]
    simp only []
    rw [hupd]

theorem returnBook_BookInv (s : DBState) (issueId : String) (now : Time)
    (h : BookInv s) : BookInv (returnBook s issueId now).1 := by
  rcases hfind : s.issues.find? (fun i => i.id == issueId) with _ | i
  · rw [returnBook_not_found s issueId now hfind]
    exact h
  · by_cases hret : i.status = .returned
    · rw [returnBook_already_returned s issueId now i hfind hret]
      exact h
    · rcases hbook : s.books.find? (fun bb => bb.id == i.bookId) with _ | b
      · rw [returnBook_book_missing s issueId now i hfind hret hbook]
        exact h
      · rw [returnBook_success s issueId now i b hfind hret hbook]
        intro bb hbb
        simp only [List.mem_map] at hbb
        obtain ⟨y, hy, hyeq⟩ := hbb
        by_cases hcase : (y.id == i.bookId) = true
        · rw [if_pos hcase] at hyeq
          subst hyeq
          obtain ⟨h0, h1⟩ := h b (List.mem_of_find?_eq_some hbook)
          exact ⟨le_max_left 0 _, max_le (le_trans h0 h1) (min_le_left _ _)⟩
        · rw [if_neg hcase] at hyeq
          subst hyeq
          exact h y hy

/-- C1: starting from any store whose books satisfy
`0 ≤ availableCopies ≤ totalCopies`, every sequence of `issueBook` and
`returnBook` operations preserves that bound for every book (the
availability write clamps into `[0, totalCopies]`, the issue path refuses
books without available copies, and every failure path leaves the books
unchanged). -/
theorem c1_issue_return_preserve_book_bounds (s : DBState) (ops : List LibOp)
    (h : BookInv s) : BookInv (applyOps s ops) := by
  induction ops generalizing s with
  | nil => exact h
  | cons op rest ih =>
    simp only [applyOps, List.foldl_cons]
    cases op with
    | issue d newId now =>
      exact ih (applyOp s (.issue d newId now)) (issueBook_BookInv s d newId now h)
    | ret issueId now =>
      exact ih (applyOp s (.ret issueId now)) (returnBook_BookInv s issueId now h)

/-- Witness for C1: an issue followed by a return on a concrete store
keeps every book's counters in bounds. -/
theorem c1_witness :
    BookInv (applyOps exStateFull
      [LibOp.issue { bookId := "b1", memberId := "m1", dueDate := none } "i2" 0,
       LibOp.ret "i1" 5]) :=
  c1_issue_return_preserve_book_bounds exStateFull
    [LibOp.issue { bookId := "b1", memberId := "m1", dueDate := none } "i2" 0,
     LibOp.ret "i1" 5] (by decide)

/-! ### C7 -/

theorem except_ok_bind {ε α β : Type} (a : α) (g : α → Except ε β) :
    (Except.ok a >>= g) = g a := rfl

theorem except_map_ok {ε α β : Type} (a : α) (f : α → β) :
    (Except.ok a : Except ε α).map f = .ok (f a) := rfl

theorem find?_key_of_mem_nodup {α : Type} (key : α → String) (l : List α)
    (hnd : (l.map key).Nodup) (t : α) (ht : t ∈ l) :
    l.find? (fun y => key y == key t) = some t := by
  induction l with
  | nil => simp at ht
  | cons b rest ih =>
    rw [List.map_cons, List.nodup_cons] at hnd
    obtain ⟨hb, hrest⟩ := hnd
    rcases List.mem_cons.1 ht with rfl | hmem
    · exact List.find?_cons_of_pos _ (by simp)
    · have hbt : ¬ ((fun y => key y == key t) b) = true := by
        simp only [beq_iff_eq]
        intro hcontra
        exact hb (hcontra ▸ List.mem_map_of_mem key hmem)
      have hstep : List.find? (fun y => key y == key t) (b :: rest) =
          List.find? (fun y => key y == key t) rest :=
        List.find?_cons_of_neg _ hbt
      rw [hstep]
      exact ih hrest hmem

theorem sweepLoop_ok (now : Time) :
    ∀ (todo : List Issue) (s : DBState),
    (∀ t ∈ todo, t ∈ s.issues) →
    ((s.issues.map (fun i => i.id)).Nodup) →
    ((todo.map (fun i => i.id)).Nodup) →
    todo.foldlM (fun st issue =>
        (updateIssue st issue.id { status := some .overdue } now).map (fun r => r.1)) s =
      .ok { s with issues := markOverdue now (todo.map (fun i => i.id)) s.issues } := by
  intro todo
  induction todo with
  | nil =>
    intro s _ _ _
    simp only [List.foldlM_nil, List.map_nil]
    have hmo : markOverdue now [] s.issues = s.issues := by
      unfold markOverdue
      simp
    rw [hmo]
    rfl
  | cons i rest ih =>
    intro s hmem hndS hndT
    have hiS : i ∈ s.issues := hmem i (List.mem_cons_self i rest)
    have hfind : s.issues.find? (fun j => j.id == i.id) = some i :=
      find?_key_of_mem_nodup (fun j => j.id) s.issues hndS i hiS
    rw [List.map_cons, List.nodup_cons] at hndT
    obtain ⟨hheadT, hrestT⟩ := hndT
    have hstep : updateIssue s i.id { status := some .overdue } now =
        .ok ({ s with issues := s.issues.map (fun j =>
            if j.id == i.id then { i with status := .overdue, updatedAt := now } else j) },
          { i with status := .overdue, updatedAt := now }) := by
      unfold updateIssue
      split
      next heq =>
        rw [hfind] at heq
        exact absurd heq (by simp)
      next iF heq =>
        rw [hfind] at heq
        injection heq with heq
        subst heq
        simp only [applyIssueUpdates, Option.getD_some]
        rw [putById_of_find? (fun j => j.id) s.issues _ i (by simpa using hfind)]
    have hids : (s.issues.map (fun j =>
        if j.id == i.id then { i with status := IssueStatus.overdue, updatedAt := now }
        else j)).map (fun j => j.id) = s.issues.map (fun j => j.id) := by
      rw [List.map_map]
      refine List.map_congr_left ?_
      intro y hy
      simp only [Function.comp_apply]
      by_cases hc : (y.id == i.id) = true
      · rw [if_pos hc]
        exact (beq_iff_eq.mp hc).symm
      · rw [if_neg hc]
    rw [List.foldlM_cons, hstep, except_map_ok, except_ok_bind]
    rw [ih _ ?hmem ?hnds hrestT]
    case hmem =>
      intro t ht
      have htid : ¬ (t.id == i.id) = true := by
        simp only [beq_iff_eq]
        intro hcontra
        exact hheadT (hcontra ▸ List.mem_map_of_mem (fun j => j.id) ht)
      refine List.mem_map.2 ⟨t, hmem t (List.mem_cons_of_mem i ht), ?_⟩
      exact if_neg htid
    case hnds =>
      have hgoal : (List.map (fun j => j.id) (List.map (fun j =>
          if j.id == i.id then { i with status := IssueStatus.overdue, updatedAt := now }
          else j) s.issues)).Nodup := by
        rw [hids]
        exact hndS
      exact hgoal
    have hfinal : markOverdue now (rest.map (fun j => j.id))
        (s.issues.map (fun j =>
          if j.id == i.id then { i with status := IssueStatus.overdue, updatedAt := now }
          else j)) =
        markOverdue now (i.id :: rest.map (fun j => j.id)) s.issues := by
      unfold markOverdue
      rw [List.map_map]
      refine List.map_congr_left ?_
      intro y hy
      simp only [Function.comp_apply]
      by_cases hc : (y.id == i.id) = true
      · have hy_eq_i : y = i :=
          List.inj_on_of_nodup_map hndS hy hiS (beq_iff_eq.mp hc)
        subst hy_eq_i
        rw [if_pos hc]
        simp [hheadT]
      · rw [if_neg hc]
        simp only [List.contains_cons, hc, Bool.false_or]
    rw [hfinal]
    rfl

theorem updateOverdueStatus_ok (s : DBState) (now : Time)
    (hnd : (s.issues.map (fun i => i.id)).Nodup) :
    updateOverdueStatus s now = .ok { s with issues := s.issues.map (flipIssue now) } := by
  unfold updateOverdueStatus
  rw [sweepLoop_ok now (s.issues.filter
      (fun issue => issue.status == .issued && decide (issue.dueDate < now))) s
    (fun t ht => List.mem_of_mem_filter ht) hnd
    ((hnd.sublist (List.Sublist.map _ (List.filter_sublist s.issues))))]
  have hpt : markOverdue now
      ((s.issues.filter
        (fun issue => issue.status == .issued && decide (issue.dueDate < now))).map
        (fun i => i.id)) s.issues = s.issues.map (flipIssue now) := by
    unfold markOverdue
    refine List.map_congr_left ?_
    intro y hy
    by_cases hc : y.status = .issued ∧ y.dueDate < now
    · have hcy : y ∈ s.issues.filter
          (fun issue => issue.status == .issued && decide (issue.dueDate < now)) := by
        rw [List.mem_filter]
        exact ⟨hy, by simp [hc.1, hc.2]⟩
      have hcontains : ((s.issues.filter
          (fun issue => issue.status == .issued && decide (issue.dueDate < now))).map
          (fun i => i.id)).contains y.id = true := by
        simp only [List.elem_eq_mem, decide_eq_true_eq]
        exact List.mem_map_of_mem (fun i => i.id) hcy
      rw [hcontains]
      unfold flipIssue
      rw [if_pos hc]
      simp
    · have hnotc : ((s.issues.filter
          (fun issue => issue.status == .issued && decide (issue.dueDate < now))).map
          (fun i => i.id)).contains y.id = false := by
        simp only [List.elem_eq_mem, decide_eq_false_iff_not, List.mem_map]
        rintro ⟨z, hz, hzid⟩
        rw [List.mem_filter] at hz
        obtain ⟨hzmem, hzp⟩ := hz
        have hz_eq_y : z = y := List.inj_on_of_nodup_map hnd hzmem hy hzid
        subst hz_eq_y
        simp only [Bool.and_eq_true, beq_iff_eq, decide_eq_true_eq] at hzp
        exact hc hzp
      rw [hnotc]
      unfold flipIssue
      rw [if_neg hc]
      simp
  rw [hpt]

/-- C7: given unique issue ids and a fixed current time, the overdue sweep
flips exactly the issues with status `'issued'` and `dueDate < now` to
`'overdue'` (stamping their `updatedAt`), and applying it a second time
returns the same state unchanged: the sweep is idempotent. -/
theorem c7_sweep_idempotent (s : DBState) (now : Time)
    (hnd : (s.issues.map (fun i => i.id)).Nodup) :
    updateOverdueStatus s now = .ok { s with issues := s.issues.map (flipIssue now) } ∧
    updateOverdueStatus { s with issues := s.issues.map (flipIssue now) } now =
      .ok { s with issues := s.issues.map (flipIssue now) } := by
  refine ⟨updateOverdueStatus_ok s now hnd, ?_⟩
  unfold updateOverdueStatus
  have hempty : List.filter
      (fun issue => issue.status == .issued && decide (issue.dueDate < now))
      (s.issues.map (flipIssue now)) = [] := by
    rw [List.filter_eq_nil_iff]
    intro a ha
    rw [List.mem_map] at ha
    obtain ⟨y, hy, rfl⟩ := ha
    unfold flipIssue
    by_cases hc : y.status = .issued ∧ y.dueDate < now
    · rw [if_pos hc]
      simp
    · rw [if_neg hc]
      simp only [Bool.and_eq_true, beq_iff_eq, decide_eq_true_eq, not_and]
      intro h1 h2
      exact hc ⟨h1, h2⟩
  simp only []
  rw [hempty, List.foldlM_nil]
  rfl

/-- Witness for C7: sweeping at time 30 flips the issue that fell due at
time 10, and sweeping again changes nothing. -/
theorem c7_witness :
    updateOverdueStatus exStateFull 30 =
      .ok { exStateFull with
            issues := [{ exIssueIssued with status := .overdue, updatedAt := 30 }] } ∧
    updateOverdueStatus
      { exStateFull with
        issues := [{ exIssueIssued with status := .overdue, updatedAt := 30 }] } 30 =
      .ok { exStateFull with
            issues := [{ exIssueIssued with status := .overdue, updatedAt := 30 }] } := by
  have h := c7_sweep_idempotent exStateFull 30 (by decide)
  exact ⟨h.1, h.2⟩

/-! ### C2 -/

theorem importData_eq (s0 : DBState) (data : ExportDoc)
    (bookGen memberGen codeGen : Nat → String) (now : Time) (s1 : DBState)
    (h : importBooksLoop (clearAllData s0) data.books bookGen 0 now = .ok s1) :
    importData s0 data bookGen memberGen codeGen now =
      .ok ((saveSettings
        (importMembersLoop s1 data.members memberGen codeGen 0 now) data.settings now).1) := by
  unfold importData
  rw [h]

theorem reAddBooks_cons (b : Book) (bs : List Book) (genId : Nat → String) (k : Nat)
    (now : Time) :
    reAddBooks (b :: bs) genId k now =
      reAddBook b (genId k) now :: reAddBooks bs genId (k + 1) now := rfl

theorem importBooksLoop_ok (genId : Nat → String) (now : Time)
    (hinj : Function.Injective genId) :
    ∀ (bs : List Book) (st : DBState) (k : Nat),
    (∀ j, k ≤ j → ∀ b ∈ st.books, ¬ b.id = genId j) →
    importBooksLoop st bs genId k now =
      .ok { st with books := st.books ++ reAddBooks bs genId k now } := by
  intro bs
  induction bs with
  | nil =>
    intro st k hf
    unfold importBooksLoop reAddBooks
    simp
  | cons b rest ih =>
    intro st k hf
    have hnotany : (st.books.any (fun bb => bb.id == genId k)) = false := by
      rw [List.any_eq_false]
      intro bb hbb
      simp only [beq_iff_eq]
      exact hf k le_rfl bb hbb
    have hadd : addBook st
        ⟨b.title, b.author, b.category, b.publicationYear, b.isbn,
         b.totalCopies, b.availableCopies⟩ (genId k) now =
        .ok ({ st with books := st.books ++ [reAddBook b (genId k) now] },
          reAddBook b (genId k) now) := by
      unfold addBook reAddBook
      simp only []
      rw [hnotany]
      simp only [Bool.false_eq_true, if_false]
    unfold importBooksLoop
    rw [hadd]
    show importBooksLoop { st with books := st.books ++ [reAddBook b (genId k) now] }
        rest genId (k + 1) now =
      .ok { st with books := st.books ++ reAddBooks (b :: rest) genId k now }
    rw [ih _ (k + 1) ?hf2]
    case hf2 =>
      intro j hj bb hbb
      rcases List.mem_append.1 hbb with h1 | h1
      · exact hf j (by omega) bb h1
      · rw [List.mem_singleton] at h1
        subst h1
        unfold reAddBook
        simp only []
        intro hcontra
        have := hinj hcontra
        omega
    rw [reAddBooks_cons]
    simp [List.append_assoc]

theorem reAddMembers_cons (m : Member) (ms : List Member) (genId genCode : Nat → String)
    (k : Nat) (now : Time) :
    reAddMembers (m :: ms) genId genCode k now =
      reAddMember m (genId k) (genCode k) now :: reAddMembers ms genId genCode (k + 1) now := rfl

theorem importMembersLoop_ok (genId genCode : Nat → String) (now : Time)
    (hinj : Function.Injective genId) (hinjC : Function.Injective genCode) :
    ∀ (ms : List Member) (st : DBState) (k : Nat),
    (∀ j, k ≤ j → ∀ m ∈ st.members, ¬ m.id = genId j ∧ ¬ m.memberId = genCode j) →
    (∀ m' ∈ ms, ∀ m2 ∈ st.members, ¬ m2.email = m'.email ∧ ¬ m2.phone = m'.phone) →
    ((ms.map (fun m => m.email)).Nodup) →
    ((ms.map (fun m => m.phone)).Nodup) →
    importMembersLoop st ms genId genCode k now =
      { st with members := st.members ++ reAddMembers ms genId genCode k now } := by
  intro ms
  induction ms with
  | nil =>
    intro st k _ _ _ _
    unfold importMembersLoop reAddMembers
    simp
  | cons m rest ih =>
    intro st k hf hdisj hem hph
    rw [List.map_cons, List.nodup_cons] at hem hph
    obtain ⟨hemhead, hemrest⟩ := hem
    obtain ⟨hphhead, hphrest⟩ := hph
    have he : (st.members.any (fun x => x.email == m.email)) = false := by
      rw [List.any_eq_false]
      intro m2 hm2
      simp only [beq_iff_eq]
      exact (hdisj m (List.mem_cons_self m rest) m2 hm2).1
    have hp : (st.members.any (fun x => x.phone == m.phone)) = false := by
      rw [List.any_eq_false]
      intro m2 hm2
      simp only [beq_iff_eq]
      exact (hdisj m (List.mem_cons_self m rest) m2 hm2).2
    have hid : (st.members.any (fun x => x.id == genId k || x.memberId == genCode k)) =
        false := by
      rw [List.any_eq_false]
      intro m2 hm2
      simp only [Bool.or_eq_true, beq_iff_eq, not_or]
      exact hf k le_rfl m2 hm2
    have hadd : addMember st ⟨m.name, m.phone, m.email, m.address⟩
        (genId k) (genCode k) now =
        .ok ({ st with members := st.members ++ [reAddMember m (genId k) (genCode k) now] },
          reAddMember m (genId k) (genCode k) now) := by
      unfold addMember reAddMember
      simp only []
      rw [he, hp, hid]
      simp only [Bool.false_eq_true, if_false]
    unfold importMembersLoop
    rw [hadd]
    show importMembersLoop
        { st with members := st.members ++ [reAddMember m (genId k) (genCode k) now] }
        rest genId genCode (k + 1) now =
      { st with members := st.members ++ reAddMembers (m :: rest) genId genCode k now }
    rw [ih _ (k + 1) ?hf2 ?hdisj2 hemrest hphrest]
    case hf2 =>
      intro j hj m2 hm2
      rcases List.mem_append.1 hm2 with h1 | h1
      · exact hf j (by omega) m2 h1
      · rw [List.mem_singleton] at h1
        subst h1
        unfold reAddMember
        simp only []
        constructor
        · intro hcontra
          have := hinj hcontra
          omega
        · intro hcontra
          have := hinjC hcontra
          omega
    case hdisj2 =>
      intro m' hm' m2 hm2
      rcases List.mem_append.1 hm2 with h1 | h1
      · exact hdisj m' (List.mem_cons_of_mem m hm') m2 h1
      · rw [List.mem_singleton] at h1
        subst h1
        unfold reAddMember
        simp only []
        constructor
        · intro hcontra
          exact hemhead (hcontra ▸ List.mem_map_of_mem (fun x => x.email) hm')
        · intro hcontra
          exact hphhead (hcontra ▸ List.mem_map_of_mem (fun x => x.phone) hm')
    rw [reAddMembers_cons]
    simp [List.append_assoc]

theorem genIdA_injective : Function.Injective genIdA := by
  intro a b h
  have h2 := congrArg (fun t => t.data.length) h
  simpa [genIdA] using h2

theorem genIdB_injective : Function.Injective genIdB := by
  intro a b h
  have h2 := congrArg (fun t => t.data.length) h
  simpa [genIdB] using h2

theorem genIdC_injective : Function.Injective genIdC := by
  intro a b h
  have h2 := congrArg (fun t => t.data.length) h
  simpa [genIdC] using h2

theorem reAddBooks_core (genId : Nat → String) (now : Time) :
    ∀ (bs : List Book) (k : Nat),
    (reAddBooks bs genId k now).map bookCore = bs.map bookCore := by
  intro bs
  induction bs with
  | nil => intro k; rfl
  | cons b rest ih =>
    intro k
    rw [reAddBooks_cons, List.map_cons, List.map_cons, ih]
    rfl

theorem reAddBooks_avail (genId : Nat → String) (now : Time) :
    ∀ (bs : List Book) (k : Nat),
    ∀ b ∈ reAddBooks bs genId k now, b.availableCopies = b.totalCopies := by
  intro bs
  induction bs with
  | nil => intro k b hb; simp [reAddBooks] at hb
  | cons b0 rest ih =>
    intro k b hb
    rw [reAddBooks_cons, List.mem_cons] at hb
    rcases hb with rfl | hb
    · rfl
    · exact ih (k + 1) b hb

theorem reAddMembers_core (genId genCode : Nat → String) (now : Time) :
    ∀ (ms : List Member) (k : Nat),
    (reAddMembers ms genId genCode k now).map memberCore = ms.map memberCore := by
  intro ms
  induction ms with
  | nil => intro k; rfl
  | cons m rest ih =>
    intro k
    rw [reAddMembers_cons, List.map_cons, List.map_cons, ih]
    rfl

/-- C2 counterexample: exporting `exStateFull` (one book with one of its
two copies available, one member, one outstanding issue) and importing
the document into an empty store does not reproduce the original records:
the book comes back under a new id with `availableCopies` reset to 2, the
member's ids are regenerated, and the issue list is empty. -/
theorem c2_counterexample :
    importData exEmpty (exportData exStateFull) genIdA genIdB genIdC 7 =
      .ok exStateImported ∧
    exStateFull.books.map (fun b => b.availableCopies) = [1] ∧
    exStateImported.books.map (fun b => b.availableCopies) = [2] ∧
    exStateFull.issues ≠ [] ∧
    exStateImported.issues = [] ∧
    exStateImported.books.map (fun b => b.id) ≠ exStateFull.books.map (fun b => b.id) := by
  decide

/-- C2 (amended): importing an exported document (into any store — import
clears it first) succeeds when the generated id and member-code streams
are injective and the exported members have pairwise-distinct emails and
phones, and it reproduces only the books' descriptive fields and
`totalCopies`, the members' name/phone/email/address, and the settings
payload. Record ids, member codes and timestamps are regenerated, every
book's `availableCopies` is reset to `totalCopies`, and all issue records
are dropped (`data.issues` is never read). A member whose generated code
collides with an already re-added member would be skipped by the
`unique: true` `memberId` index, hence the injectivity of `codeGen`. -/
theorem c2_export_import_amended (s0 s : DBState)
    (bookGen memberGen codeGen : Nat → String) (now : Time)
    (hinjB : Function.Injective bookGen)
    (hinjM : Function.Injective memberGen)
    (hinjC : Function.Injective codeGen)
    (hem : (s.members.map (fun m => m.email)).Nodup)
    (hph : (s.members.map (fun m => m.phone)).Nodup) :
    importData s0 (exportData s) bookGen memberGen codeGen now =
      .ok { books := reAddBooks s.books bookGen 0 now,
            members := reAddMembers s.members memberGen codeGen 0 now,
            issues := [],
            settings := { s.settings with id := "default", updatedAt := now } } ∧
    (reAddBooks s.books bookGen 0 now).map bookCore = s.books.map bookCore ∧
    (∀ b ∈ reAddBooks s.books bookGen 0 now, b.availableCopies = b.totalCopies) ∧
    (reAddMembers s.members memberGen codeGen 0 now).map memberCore =
      s.members.map memberCore ∧
    settingsCore { s.settings with id := "default", updatedAt := now } =
      settingsCore s.settings := by
  refine ⟨?_, reAddBooks_core bookGen now s.books 0, reAddBooks_avail bookGen now s.books 0,
    reAddMembers_core memberGen codeGen now s.members 0, rfl⟩
  have hbooks : importBooksLoop (clearAllData s0) s.books bookGen 0 now =
      .ok { books := reAddBooks s.books bookGen 0 now, members := [], issues := [],
            settings := s0.settings } := by
    have hb := importBooksLoop_ok bookGen now hinjB s.books (clearAllData s0) 0
      (by intro j hj b hb; simp [clearAllData] at hb)
    rw [hb]
    simp [clearAllData]
  rw [importData_eq s0 (exportData s) bookGen memberGen codeGen now _ hbooks]
  simp only [exportData]
  have hmem2 : importMembersLoop
      { books := reAddBooks s.books bookGen 0 now, members := [], issues := [],
        settings := s0.settings } s.members memberGen codeGen 0 now =
      { books := reAddBooks s.books bookGen 0 now,
        members := reAddMembers s.members memberGen codeGen 0 now, issues := [],
        settings := s0.settings } := by
    have hm := importMembersLoop_ok memberGen codeGen now hinjM hinjC s.members
      { books := reAddBooks s.books bookGen 0 now, members := [], issues := [],
        settings := s0.settings } 0
      (by intro j hj m hm; simp at hm)
      (by intro m' hm' m2 hm2; simp at hm2)
      hem hph
    rw [hm]
    simp
  rw [hmem2]
  simp [saveSettings]

/-- Witness for C2: the concrete round trip from `c2_counterexample`,
derived from the amended theorem with the injective id streams. -/
theorem c2_witness :
    importData exEmpty (exportData exStateFull) genIdA genIdB genIdC 7 =
      .ok { books := reAddBooks exStateFull.books genIdA 0 7,
            members := reAddMembers exStateFull.members genIdB genIdC 0 7,
            issues := [],
            settings := { exStateFull.settings with id := "default", updatedAt := 7 } } :=
  (c2_export_import_amended exEmpty exStateFull genIdA genIdB genIdC 7
    genIdA_injective genIdB_injective genIdC_injective (by decide) (by decide)).1
